import Mathlib

/-!
# Verification of the `question` prompt helper

A shallow embedding of `src/lib.rs`: a minimal interactive prompt helper.
`Question::ask` normalizes the question (appending a single ASCII space
unless one is already trailing), writes it to the sink, flushes, reads one
line from the source, and returns `None` on immediate end-of-input or the
trimmed line otherwise.

Strings are modelled as `List Char` (the code only performs
character-level operations). The reader is the list of characters still
unread; the sink accumulates written characters. Fallibility of the
underlying I/O primitives (`write_all`, `flush`, `read_line`) is modelled
by boolean failure flags on the state: a set flag makes the corresponding
primitive return an error, which `ask` propagates via `?`.
-/

/-- Rust `str::ends_with(' ')` on the character list `s`: true iff the last
character is an ASCII space. -/
def endsWithSpace (s : List Char) : Bool :=
  s.getLast? = some ' '

/-- Embeds `ensure_ends_with_whitespace` from `src/lib.rs`: return `source`
if it already ends with `' '`, else `source + " "`. -/
def ensure_ends_with_whitespace (source : List Char) : List Char :=
  if endsWithSpace source then source else source ++ [' ']

/-- Rust `char::is_whitespace`: membership in the Unicode `White_Space`
set, used by `str::trim`. -/
def rust_is_whitespace (c : Char) : Bool :=
  decide (c.toNat ∈ [0x09, 0x0A, 0x0B, 0x0C, 0x0D, 0x20, 0x85, 0xA0, 0x1680,
    0x2000, 0x2001, 0x2002, 0x2003, 0x2004, 0x2005, 0x2006, 0x2007, 0x2008,
    0x2009, 0x200A, 0x2028, 0x2029, 0x202F, 0x205F, 0x3000])

/-- Rust `str::trim`: strip leading and trailing whitespace characters.
Modelled as: drop the trailing whitespace (via reverse), then the leading. -/
def trim (s : List Char) : List Char :=
  ((s.reverse.dropWhile rust_is_whitespace).reverse).dropWhile rust_is_whitespace

/-- Embeds `BufRead::read_line` on an in-memory source: consume characters
up to and including the first newline (or to end-of-input) and return the
consumed line together with the remaining input. The Rust call returns the
number of bytes read; the embedding's callers test the line for emptiness,
which matches `n == 0` exactly. -/
def read_line : List Char → List Char × List Char
  | [] => ([], [])
  | c :: rest =>
    if c = '\n' then ([c], rest)
    else
      let p := read_line rest
      (c :: p.1, p.2)

/-- The state owned by a `Question<R, W>` value: the unread input of the
reader, the characters accumulated in the sink, and failure flags making
`read_line`, `write_all` and `flush` return an I/O error. -/
structure QState where
  reader : List Char
  readFails : Bool
  sink : List Char
  writeFails : Bool
  flushFails : Bool
deriving Repr, DecidableEq

/-- Embeds `Question::ask` from `src/lib.rs`: normalize the question, write
it to the sink (propagating a write error), flush (propagating a flush
error), read one line (propagating a read error), and return `none` if
zero characters were read, else the trimmed line. Returns the updated
state together with the `io::Result<Option<String>>` value. -/
def ask (st : QState) (question : List Char) :
    QState × Except Unit (Option (List Char)) :=
  let q := ensure_ends_with_whitespace question
  if st.writeFails then
    (st, .error ())
  else
    let st1 : QState := { st with sink := st.sink ++ q }
    if st1.flushFails then
      (st1, .error ())
    else if st1.readFails then
      (st1, .error ())
    else
      let p := read_line st1.reader
      let st2 : QState := { st1 with reader := p.2 }
      if p.1.length = 0 then
        (st2, .ok none)
      else
        (st2, .ok (some (trim p.1)))

/-- A reader/sink state with the given unread input and empty sink, all
failure flags clear. -/
def okState (input : List Char) : QState :=
  ⟨input, false, [], false, false⟩

/-- The literal question string of the repository's tests. -/
def howAreYou : List Char := "How are you?".data

/-- The literal answer string of the repository's tests. -/
def fineAnswer : List Char := "I\x27m fine, thank you!".data

/-- The head of a `dropWhile` result fails the predicate. -/
lemma head?_dropWhile_false {α : Type} (p : α → Bool) (l : List α) (a : α)
    (h : (l.dropWhile p).head? = some a) : p a = false := by
  induction l with
  | nil => simp [List.dropWhile] at h
  | cons c rest ih =>
    by_cases hc : p c
    · rw [List.dropWhile_cons, if_pos hc] at h
      exact ih h
    · rw [List.dropWhile_cons, if_neg hc] at h
      simp at h
      subst h
      simpa using hc

/-- `dropWhile` is idempotent. -/
lemma dropWhile_dropWhile {α : Type} (p : α → Bool) (l : List α) :
    (l.dropWhile p).dropWhile p = l.dropWhile p := by
  induction l with
  | nil => rfl
  | cons c rest ih =>
    by_cases hc : p c <;> simp [List.dropWhile_cons, hc, ih]

/-- `dropWhile` keeps the last element of a list when its result is
nonempty. -/
lemma getLast?_dropWhile {α : Type} (p : α → Bool) (l : List α)
    (h : l.dropWhile p ≠ []) : (l.dropWhile p).getLast? = l.getLast? := by
  induction l with
  | nil => simp at h
  | cons c rest ih =>
    by_cases hc : p c
    · rw [List.dropWhile_cons, if_pos hc] at h ⊢
      have hne : rest ≠ [] := by
        intro e
        subst e
        exact h rfl
      obtain ⟨b, t, rfl⟩ := List.exists_cons_of_ne_nil hne
      rw [ih h, List.getLast?_cons_cons]
    · rw [List.dropWhile_cons, if_neg hc]

/-- A list whose head fails the predicate is fixed by `dropWhile`. -/
lemma dropWhile_eq_self_of_head {α : Type} (p : α → Bool) (l : List α)
    (h : ∀ a, l.head? = some a → p a = false) : l.dropWhile p = l := by
  cases l with
  | nil => rfl
  | cons c rest => simp [List.dropWhile_cons, h c rfl]

/-- Trimming only removes characters: members of `trim l` are members of
`l`. -/
lemma mem_of_mem_trim (a : Char) (l : List Char) (h : a ∈ trim l) : a ∈ l := by
  unfold trim at h
  have h1 := (List.dropWhile_sublist rust_is_whitespace).subset h
  rw [List.mem_reverse] at h1
  have h2 := (List.dropWhile_sublist rust_is_whitespace).subset h1
  rwa [List.mem_reverse] at h2

/-- Appending one whitespace character does not change the trimmed value. -/
lemma trim_append_whitespace (l : List Char) (c : Char)
    (hc : rust_is_whitespace c = true) : trim (l ++ [c]) = trim l := by
  unfold trim
  rw [List.reverse_append]
  simp [List.dropWhile_cons, hc]

/-- An all-whitespace list trims to the empty list. -/
lemma trim_eq_nil_of_all_whitespace (l : List Char)
    (h : ∀ c ∈ l, rust_is_whitespace c = true) : trim l = [] := by
  unfold trim
  have he : l.reverse.dropWhile rust_is_whitespace = [] := by
    rw [List.dropWhile_eq_nil_iff]
    intro x hx
    exact h x (List.mem_reverse.mp hx)
  rw [he]
  rfl

/-- The last character of a trimmed list is never whitespace. -/
lemma getLast?_trim_false (l : List Char) (a : Char)
    (h : (trim l).getLast? = some a) : rust_is_whitespace a = false := by
  unfold trim at h
  have hne : ((l.reverse.dropWhile rust_is_whitespace).reverse).dropWhile
      rust_is_whitespace ≠ [] := by
    intro e
    rw [e] at h
    simp at h
  rw [getLast?_dropWhile _ _ hne, List.getLast?_reverse] at h
  exact head?_dropWhile_false _ _ _ h

/-- `trim` is idempotent. -/
lemma trim_trim (l : List Char) : trim (trim l) = trim l := by
  have h1 : (trim l).reverse.dropWhile rust_is_whitespace = (trim l).reverse := by
    apply dropWhile_eq_self_of_head
    intro a ha
    rw [List.head?_reverse] at ha
    exact getLast?_trim_false l a ha
  show ((trim l).reverse.dropWhile rust_is_whitespace).reverse.dropWhile
      rust_is_whitespace = trim l
  rw [h1, List.reverse_reverse]
  unfold trim
  exact dropWhile_dropWhile _ _

/-- Reading from a source whose first line is `l` (newline-free) consumes
exactly `l` and its newline. -/
lemma read_line_append (l rest : List Char) (h : '\n' ∉ l) :
    read_line (l ++ '\n' :: rest) = (l ++ ['\n'], rest) := by
  induction l with
  | nil => simp [read_line]
  | cons c t ih =>
    have hc : c ≠ '\n' := by
      intro e
      exact h (by rw [e]; exact List.mem_cons_self _ _)
    have ht : '\n' ∉ t := fun hm => h (List.mem_cons_of_mem _ hm)
    simp [read_line, hc, ih ht]

/-- A line produced by `read_line` holds a newline only in final
position. -/
lemma read_line_newline_shape (input : List Char) :
    (read_line input).1 = [] ∨
      (∃ l, (read_line input).1 = l ++ ['\n'] ∧ '\n' ∉ l) ∨
      '\n' ∉ (read_line input).1 := by
  induction input with
  | nil => left; rfl
  | cons c rest ih =>
    by_cases hc : c = '\n'
    · subst hc
      right
      left
      exact ⟨[], by simp [read_line], by simp⟩
    · have he : (read_line (c :: rest)).1 = c :: (read_line rest).1 := by
        simp [read_line, hc]
      rcases ih with h | ⟨l, hl, hnl⟩ | h
      · right
        right
        rw [he, h]
        simp [Ne.symm hc]
      · right
        left
        refine ⟨c :: l, ?_, ?_⟩
        · rw [he, hl]
          rfl
        · simp [Ne.symm hc, hnl]
      · right
        right
        rw [he]
        simp [Ne.symm hc, h]

/-- Trimming any line produced by `read_line` removes every newline. -/
lemma no_newline_in_trim_read_line (input : List Char) :
    '\n' ∉ trim (read_line input).1 := by
  rcases read_line_newline_shape input with h | ⟨l, hl, hnl⟩ | h
  · rw [h]
    simp [trim, List.dropWhile]
  · rw [hl, trim_append_whitespace _ _ (by decide)]
    intro hm
    exact hnl (mem_of_mem_trim _ _ hm)
  · intro hm
    exact h (mem_of_mem_trim _ _ hm)

/-- The normalized question always ends with an ASCII space. -/
lemma ensure_getLast (q : List Char) :
    (ensure_ends_with_whitespace q).getLast? = some ' ' := by
  unfold ensure_ends_with_whitespace endsWithSpace
  by_cases h : q.getLast? = some ' '
  · simp [h]
  · simp [h, List.getLast?_concat]

/-- Evaluation of `ask` on a failure-free state. -/
lemma ask_ok (r s q : List Char) :
    ask ⟨r, false, s, false, false⟩ q =
      (⟨(read_line r).2, false, s ++ ensure_ends_with_whitespace q, false, false⟩,
        if (read_line r).1.length = 0 then .ok none
        else .ok (some (trim (read_line r).1))) := by
  by_cases h : (read_line r).1.length = 0 <;> simp [ask, h]

/-- `ask` on a failure-free source whose first line is `l` (newline-free)
returns the trimmed line and leaves the rest of the input unread. -/
lemma ask_line (l rest q s : List Char) (h : '\n' ∉ l) :
    ask ⟨l ++ '\n' :: rest, false, s, false, false⟩ q =
      (⟨rest, false, s ++ ensure_ends_with_whitespace q, false, false⟩,
        .ok (some (trim l))) := by
  rw [ask_ok, read_line_append l rest h]
  simp [trim_append_whitespace l '\n' (by decide)]


/-- C1: for every question string `q`, `ask` writes to the sink exactly
`q ++ " "` when `q` does not end with an ASCII space, and exactly `q`
unchanged when `q` already ends in exactly one space (no double space
appended; only a trailing ASCII space is checked). -/
theorem c1_ask_writes_normalized_question (q r s : List Char) :
    (endsWithSpace q = false →
      (ask ⟨r, false, s, false, false⟩ q).1.sink = s ++ q ++ [' ']) ∧
    (∀ q2, q = q2 ++ [' '] → endsWithSpace q2 = false →
      (ask ⟨r, false, s, false, false⟩ q).1.sink = s ++ q) := by
  constructor
  · intro h
    rw [ask_ok]
    simp [ensure_ends_with_whitespace, h, List.append_assoc]
  · intro q2 hq _
    have hsp : endsWithSpace q = true := by
      subst hq
      simp [endsWithSpace, List.getLast?_concat]
    rw [ask_ok]
    simp [ensure_ends_with_whitespace, hsp]

/-- Witness for C1 at the concrete questions `"hi"` and `"hi "`. -/
theorem c1_witness :
    (ask ⟨[], false, [], false, false⟩ ['h', 'i']).1.sink = [] ++ ['h', 'i'] ++ [' '] ∧
    (ask ⟨[], false, [], false, false⟩ ['h', 'i', ' ']).1.sink = [] ++ ['h', 'i', ' '] :=
  ⟨(c1_ask_writes_normalized_question ['h', 'i'] [] []).1 (by decide),
    (c1_ask_writes_normalized_question ['h', 'i', ' '] [] []).2 ['h', 'i']
      (by decide) (by decide)⟩

/-- C2: on an immediately exhausted source, `ask` returns `Ok(None)` for
every question, and the sink still receives the normalized question. -/
theorem c2_eof_returns_none (q s : List Char) :
    ask ⟨[], false, s, false, false⟩ q =
      (⟨[], false, s ++ ensure_ends_with_whitespace q, false, false⟩, .ok none) := by
  simp [ask, read_line]

/-- C3: when the first line of the source consists only of whitespace
characters followed by a newline, `ask` returns `Ok(Some(""))`, a present
empty answer rather than the absent result. -/
theorem c3_whitespace_line_gives_some_empty (w rest q s : List Char)
    (hws : ∀ c ∈ w, rust_is_whitespace c = true) (hnl : '\n' ∉ w) :
    ask ⟨w ++ '\n' :: rest, false, s, false, false⟩ q =
      (⟨rest, false, s ++ ensure_ends_with_whitespace q, false, false⟩,
        .ok (some [])) := by
  rw [ask_line w rest q s hnl, trim_eq_nil_of_all_whitespace w hws]

/-- Witness for C3 at the concrete source line `"   \n"`. -/
theorem c3_witness :
    ask ⟨[' ', ' ', ' ', '\n'], false, [], false, false⟩ howAreYou =
      (⟨[], false, [] ++ ensure_ends_with_whitespace howAreYou, false, false⟩,
        .ok (some [])) :=
  c3_whitespace_line_gives_some_empty [' ', ' ', ' '] [] howAreYou []
    (by decide) (by decide)

/-- C4 fails on the code: for the question `"a  "` (ending in two ASCII
spaces) the sink receives the question unchanged, not the question plus a
third space. -/
theorem c4_counterexample :
    (ask ⟨[], false, [], false, false⟩ ['a', ' ', ' ']).1.sink ≠
      ['a', ' ', ' ', ' '] := by
  decide

/-- C4 amended: for every question string already ending in two ASCII
spaces, `ask` writes the question unchanged to the sink (the trailing
space test already succeeds, so no third space is appended). -/
theorem c4_amended_two_spaces_written_unchanged (q2 r s : List Char) :
    (ask ⟨r, false, s, false, false⟩ (q2 ++ [' ', ' '])).1.sink =
      s ++ (q2 ++ [' ', ' ']) := by
  have hsp : endsWithSpace (q2 ++ [' ', ' ']) = true := by
    unfold endsWithSpace
    rw [show q2 ++ [' ', ' '] = (q2 ++ [' ']) ++ [' '] from by simp,
      List.getLast?_concat]
    simp
  rw [ask_ok]
  simp [ensure_ends_with_whitespace, hsp]

/-- C5: with question `"How are you?"` and source `"I'm fine, thank
you!\n"`, `ask` writes exactly `"How are you? "` to the sink and returns
`Ok(Some("I'm fine, thank you!"))` with the newline stripped. -/
theorem c5_literal_scenario :
    ask ⟨fineAnswer ++ ['\n'], false, [], false, false⟩ howAreYou =
      (⟨[], false, howAreYou ++ [' '], false, false⟩, .ok (some fineAnswer)) := by
  rfl

/-- C6: for every question, the character sequence `ask` appends to the
sink ends with an ASCII space; this holds even when the subsequent read
fails, showing the write happens before any read. -/
theorem c6_written_bytes_end_with_space (q r s : List Char) (rf : Bool) :
    ∃ w, (ask ⟨r, rf, s, false, false⟩ q).1.sink = s ++ w ∧
      w.getLast? = some ' ' := by
  refine ⟨ensure_ends_with_whitespace q, ?_, ensure_getLast q⟩
  cases rf
  · rw [ask_ok]
  · simp [ask]

/-- C7: when the write to the sink fails, `ask` returns the I/O error and
consumes nothing from the source (the whole state is left unchanged). -/
theorem c7_write_failure_aborts (q r s : List Char) (rf ff : Bool) :
    ask ⟨r, rf, s, true, ff⟩ q = (⟨r, rf, s, true, ff⟩, .error ()) := by
  simp [ask]

/-- C8: two successive `ask` calls on a source holding at least two lines
consume exactly one line per call in order: the first call returns the
trimmed first line, the second the trimmed second line, and the remainder
of the source is untouched. -/
theorem c8_two_calls_consume_lines_in_order (l1 l2 rest q1 q2 s : List Char)
    (h1 : '\n' ∉ l1) (h2 : '\n' ∉ l2) :
    (ask ⟨l1 ++ '\n' :: (l2 ++ '\n' :: rest), false, s, false, false⟩ q1).2 =
        .ok (some (trim l1)) ∧
    (ask (ask ⟨l1 ++ '\n' :: (l2 ++ '\n' :: rest), false, s, false, false⟩ q1).1
        q2).2 = .ok (some (trim l2)) ∧
    (ask (ask ⟨l1 ++ '\n' :: (l2 ++ '\n' :: rest), false, s, false, false⟩ q1).1
        q2).1.reader = rest := by
  have e2 := ask_line l2 rest q2 (s ++ ensure_ends_with_whitespace q1) h2
  rw [ask_line l1 (l2 ++ '\n' :: rest) q1 s h1]
  exact ⟨rfl, congrArg Prod.snd e2, congrArg (fun x => x.1.reader) e2⟩

/-- Witness for C8 with source `"one\ntwo\nxyz"`. -/
theorem c8_witness :
    (ask ⟨"one".data ++ '\n' :: ("two".data ++ '\n' :: "xyz".data), false, [],
        false, false⟩ ['q']).2 = .ok (some (trim "one".data)) ∧
    (ask (ask ⟨"one".data ++ '\n' :: ("two".data ++ '\n' :: "xyz".data), false,
        [], false, false⟩ ['q']).1 ['p']).2 = .ok (some (trim "two".data)) ∧
    (ask (ask ⟨"one".data ++ '\n' :: ("two".data ++ '\n' :: "xyz".data), false,
        [], false, false⟩ ['q']).1 ['p']).1.reader = "xyz".data :=
  c8_two_calls_consume_lines_in_order "one".data "two".data "xyz".data
    ['q'] ['p'] [] (by decide) (by decide)

/-- C9: whenever `ask` returns `Ok(Some(a))`, the answer `a` contains no
newline and equals its own trim (no leading or trailing whitespace). -/
theorem c9_answer_is_trimmed_single_line (st : QState) (q a : List Char)
    (h : (ask st q).2 = .ok (some a)) : '\n' ∉ a ∧ trim a = a := by
  have ha : a = trim (read_line st.reader).1 := by
    simp only [ask] at h
    split at h
    · simp at h
    · split at h
      · simp at h
      · split at h
        · simp at h
        · split at h
          · simp at h
          · simp at h
            exact h.symm
  subst ha
  exact ⟨no_newline_in_trim_read_line st.reader, trim_trim _⟩

/-- Witness for C9 at source `"hi\n"`. -/
theorem c9_witness : '\n' ∉ ['h', 'i'] ∧ trim ['h', 'i'] = ['h', 'i'] :=
  c9_answer_is_trimmed_single_line (okState ['h', 'i', '\n']) [] ['h', 'i']
    (by rfl)

/-- C10: question normalization is idempotent — applying
`ensure_ends_with_whitespace` twice yields the same result as once. -/
theorem c10_ensure_idempotent (q : List Char) :
    ensure_ends_with_whitespace (ensure_ends_with_whitespace q) =
      ensure_ends_with_whitespace q := by
  have h : endsWithSpace (ensure_ends_with_whitespace q) = true := by
    simp [endsWithSpace, ensure_getLast q]
  show (if endsWithSpace (ensure_ends_with_whitespace q) then
      ensure_ends_with_whitespace q
    else ensure_ends_with_whitespace q ++ [' ']) = ensure_ends_with_whitespace q
  simp [h]
